import Mathlib

/-!
Shallow embedding of `extras/Hadrons/Modules/MContraction/WeakHamiltonianEye.cc`
(Grid physics library): the weak-Hamiltonian Eye-type contraction module
`TWeakHamiltonianEye`.

The lattice is modelled with a temporal extent `T` (time coordinates `Fin T`)
and an abstract finite spatial slice `S`; a lattice site is a pair of a time
coordinate and a spatial coordinate.  Spin-color matrices are square matrices
of size `N` over a commutative star ring `R` (the complex scalars of the
source).  The Dirac algebra values (gamma5 and the left-handed directional
insertions `GammaL(Gamma::gmu[mu])`) are opaque matrix parameters, since their
numerical content lives in the Grid algebra library outside this module.
-/

namespace MContraction

/-- A spin-color matrix: the per-site value of a propagator
(`SitePropagator` in the source). -/
abbrev SitePropagator (N : ℕ) (R : Type) := Matrix (Fin N) (Fin N) R

/-- A full-volume propagator field: one spin-color matrix per lattice site
(`PropagatorField` in the source). -/
abbrev PropagatorField (T : ℕ) (S : Type) (N : ℕ) (R : Type) :=
  Fin T → S → SitePropagator N R

/-- A sink-smeared (sliced) propagator: one spin-color matrix per time
coordinate, with no residual spatial dependence (`SlicedPropagator`). -/
abbrev SlicedPropagator (T : ℕ) (N : ℕ) (R : Type) := Fin T → SitePropagator N R

/-- A complex scalar field over the lattice (`LatticeComplex` in the source). -/
abbrev LatticeComplex (T : ℕ) (S : Type) (R : Type) := Fin T → S → R

/-- The Dirac-algebra data the module consumes: gamma5 and, for each of the
`D` spacetime directions, the left-handed insertion `GammaL(Gamma::gmu[mu])`.
Their numerical values come from the Grid gamma library, outside this
module; they enter the contraction as opaque matrix constants. -/
structure DiracAlg (D N : ℕ) (R : Type) where
  g5 : SitePropagator N R
  gmuL : Fin D → SitePropagator N R

/-- The module parameters (`WeakHamiltonianPar`): the four quark input names,
the sink time, and the output stem.  The sink time is in range by typing. -/
structure WeakHamiltonianPar (T : ℕ) where
  q1 : String
  q2 : String
  q3 : String
  q4 : String
  tSnk : Fin T
  output : String

/-- An object stored in the environment under a name: either a sliced
propagator or a full-volume propagator field. -/
inductive EnvObject (T : ℕ) (S : Type) (N : ℕ) (R : Type) where
  | slicedProp (p : SlicedPropagator T N R)
  | propField (p : PropagatorField T S N R)

/-- The object environment: a partial map from names to stored objects. -/
abbrev Env (T : ℕ) (S : Type) (N : ℕ) (R : Type) :=
  String → Option (EnvObject T S N R)

/-- The error kinds of the engine. -/
inductive GridError where
  | UnresolvedInputError (name : String)
  | DimensionMismatchError
  | AllocationError
  | ProjectionError
deriving DecidableEq

/-- A result record: a diagram label together with its correlator
(the `Result` serializable class of the source). -/
structure Result (R : Type) where
  name : String
  corr : List R
deriving DecidableEq

/-- One record handed to the result writer: a top-level key plus the
sequence of results written under it. -/
structure WriteRecord (R : Type) where
  key : String
  results : List (Result R)
deriving DecidableEq

section Ops

variable {T D N : ℕ} {S : Type} [Fintype S] {R : Type} [CommRing R] [StarRing R]

/-- Modelled from the spec: `envGet(SlicedPropagator, name)`.  The
environment collaborator (not under `src/`) resolves a name to a sliced
propagator and fails with `UnresolvedInputError` when the name is unknown
or holds an object of the wrong kind. -/
def envGetSliced (env : Env T S N R) (name : String) :
    Except GridError (SlicedPropagator T N R) :=
  match env name with
  | some (EnvObject.slicedProp p) => Except.ok p
  | _ => Except.error (GridError.UnresolvedInputError name)

/-- Modelled from the spec: `envGet(PropagatorField, name)`.  Resolves a
name to a full-volume propagator field, failing with
`UnresolvedInputError` when the name is unknown or of the wrong kind. -/
def envGetField (env : Env T S N R) (name : String) :
    Except GridError (PropagatorField T S N R) :=
  match env name with
  | some (EnvObject.propField p) => Except.ok p
  | _ => Except.error (GridError.UnresolvedInputError name)

/-- Modelled from the spec: the `MAKE_SE_BODY(Q_1, Q_2, Q_3, gamma)` macro of
`WeakHamiltonian.hpp` (not under `src/`): per site,
`q3 * g5 * q1 * adj(q2) * (g5 * gamma)`. -/
def MAKE_SE_BODY (g5 Q1 Q2 Q3 gamma : SitePropagator N R) : SitePropagator N R :=
  Q3 * g5 * Q1 * Q2.conjTranspose * (g5 * gamma)

/-- Modelled from the spec: the `MAKE_SE_LOOP(Q_LOOP, gamma)` macro of
`WeakHamiltonian.hpp` (not under `src/`): per site, `q_loop * gamma`. -/
def MAKE_SE_LOOP (Q gamma : SitePropagator N R) : SitePropagator N R :=
  Q * gamma

/-- Modelled from the spec: the `SUM_MU(buf, expr)` macro of
`WeakHamiltonian.hpp` (not under `src/`): clear the buffer, then loop
`mu = 0, ..., ndim - 1` accumulating `expr(mu)` into it. -/
def SUM_MU (expr : Fin D → R) : R :=
  (List.finRange D).foldl (fun acc mu => acc + expr mu) 0

/-- Modelled from the spec: the Grid `sliceSum` reduction along the time direction, the
zero-momentum projection: for each time coordinate, sum the field over
every spatial coordinate of that time slice. -/
def sliceSum (f : LatticeComplex T S R) : Fin T → R :=
  fun t => ∑ x, f t x

/-- Modelled from the spec: the `MAKE_DIAG(exp, buf, res, n)` macro of
`WeakHamiltonian.hpp` (not under `src/`): slice-sum the per-site field over
time slices and store the per-time values into a result labelled `n`. -/
def MAKE_DIAG (f : LatticeComplex T S R) (n : String) : Result R :=
  Result.mk n (List.ofFn (sliceSum f))

/-- The S-type (Saucer) body fields, one per direction
(`S_body[mu] = MAKE_SE_BODY(q1Snk, q2, q3, GammaL(Gamma::gmu[mu]))`,
line 131 of the source). -/
def S_body (A : DiracAlg D N R) (q1Snk : SitePropagator N R)
    (q2 q3 : PropagatorField T S N R) : Fin D → PropagatorField T S N R :=
  fun mu t x => MAKE_SE_BODY A.g5 q1Snk (q2 t x) (q3 t x) (A.gmuL mu)

/-- The S-type (Saucer) loop fields, one per direction
(`S_loop[mu] = MAKE_SE_LOOP(q4, GammaL(Gamma::gmu[mu]))`, line 132). -/
def S_loop (A : DiracAlg D N R) (q4 : PropagatorField T S N R) :
    Fin D → PropagatorField T S N R :=
  fun mu t x => MAKE_SE_LOOP (q4 t x) (A.gmuL mu)

/-- The Saucer per-site contraction field:
`SUM_MU(expbuf, trace(S_body[mu]*S_loop[mu]))` (line 136). -/
def expbufS (A : DiracAlg D N R) (q1Snk : SitePropagator N R)
    (q2 q3 q4 : PropagatorField T S N R) : LatticeComplex T S R :=
  fun t x =>
    SUM_MU (fun mu => (S_body A q1Snk q2 q3 mu t x * S_loop A q4 mu t x).trace)

/-- The E-type (Eye) body fields, recycled from the Saucer fields:
`E_body[mu] = trace(S_body[mu])` (line 142). -/
def E_body (A : DiracAlg D N R) (q1Snk : SitePropagator N R)
    (q2 q3 : PropagatorField T S N R) : Fin D → LatticeComplex T S R :=
  fun mu t x => (S_body A q1Snk q2 q3 mu t x).trace

/-- The E-type (Eye) loop fields, recycled from the Saucer fields:
`E_loop[mu] = trace(S_loop[mu])` (line 143). -/
def E_loop (A : DiracAlg D N R) (q4 : PropagatorField T S N R) :
    Fin D → LatticeComplex T S R :=
  fun mu t x => (S_loop A q4 mu t x).trace

/-- The Eye per-site contraction field:
`SUM_MU(expbuf, E_body[mu]*E_loop[mu])` (line 147). -/
def expbufE (A : DiracAlg D N R) (q1Snk : SitePropagator N R)
    (q2 q3 q4 : PropagatorField T S N R) : LatticeComplex T S R :=
  fun t x =>
    SUM_MU (fun mu => E_body A q1Snk q2 q3 mu t x * E_loop A q4 mu t x)

/-- `TWeakHamiltonianEye::getInput`: the four quark names (lines 71 to 76). -/
def getInput (par : WeakHamiltonianPar T) : List String :=
  [par.q1, par.q2, par.q3, par.q4]

/-- `TWeakHamiltonianEye::getOutput`: no named environment outputs
(lines 78 to 83). -/
def getOutput (par : WeakHamiltonianPar T) : List String :=
  []

/-- `TWeakHamiltonianEye::execute` (lines 100 to 151): resolve the four
quark inputs (the first unresolved name aborts the execution), take the
sink time slice of q1, build the Saucer body and loop fields for every
direction, contract them into the Saucer diagram, recycle their traces
into the Eye diagram, and perform one write of the two results under the
key `HW_Eye`. -/
def execute (A : DiracAlg D N R) (par : WeakHamiltonianPar T)
    (env : Env T S N R) : Except GridError (List (WriteRecord R)) :=
  match envGetSliced env par.q1, envGetField env par.q2,
        envGetField env par.q3, envGetField env par.q4 with
  | Except.ok q1, Except.ok q2, Except.ok q3, Except.ok q4 =>
    Except.ok [WriteRecord.mk "HW_Eye"
      [MAKE_DIAG (expbufS A (q1 par.tSnk) q2 q3 q4) "HW_S",
       MAKE_DIAG (expbufE A (q1 par.tSnk) q2 q3 q4) "HW_E"]]
  | Except.error e, _, _, _ => Except.error e
  | _, Except.error e, _, _ => Except.error e
  | _, _, Except.error e, _ => Except.error e
  | _, _, _, Except.error e => Except.error e

/-- The mutable state visible to one execution of the module: the object
environment, the execution-local scratch buffers declared in `setup`
(lines 86 to 97: `expbuf`, `tmp1`, `tmp2`, `S_body`, `S_loop`, `E_body`,
`E_loop`) and the records written so far. -/
structure ModuleState (T D N : ℕ) (S : Type) (R : Type) where
  env : Env T S N R
  expbuf : LatticeComplex T S R
  tmp1 : PropagatorField T S N R
  tmp2 : LatticeComplex T S R
  S_body : Fin D → PropagatorField T S N R
  S_loop : Fin D → PropagatorField T S N R
  E_body : Fin D → LatticeComplex T S R
  E_loop : Fin D → LatticeComplex T S R
  written : List (WriteRecord R)

/-- State-passing form of `TWeakHamiltonianEye::execute`: the environment is
only read, the scratch buffers receive the values the loops of lines
129 to 147 leave in them (`expbuf` is reused by both diagrams, so its final
content is the Eye contraction; `tmp1` and `tmp2` are allocated but never
touched by `execute`), and the single write of line 150 is appended to the
write log. -/
def executeSt (A : DiracAlg D N R) (par : WeakHamiltonianPar T)
    (s : ModuleState T D N S R) : Except GridError (ModuleState T D N S R) :=
  match envGetSliced s.env par.q1, envGetField s.env par.q2,
        envGetField s.env par.q3, envGetField s.env par.q4 with
  | Except.ok q1, Except.ok q2, Except.ok q3, Except.ok q4 =>
    Except.ok (ModuleState.mk s.env
      (expbufE A (q1 par.tSnk) q2 q3 q4)
      s.tmp1
      s.tmp2
      (S_body A (q1 par.tSnk) q2 q3)
      (S_loop A q4)
      (E_body A (q1 par.tSnk) q2 q3)
      (E_loop A q4)
      (s.written ++ [WriteRecord.mk "HW_Eye"
        [MAKE_DIAG (expbufS A (q1 par.tSnk) q2 q3 q4) "HW_S",
         MAKE_DIAG (expbufE A (q1 par.tSnk) q2 q3 q4) "HW_E"]]))
  | Except.error e, _, _, _ => Except.error e
  | _, Except.error e, _, _ => Except.error e
  | _, _, Except.error e, _ => Except.error e
  | _, _, _, Except.error e => Except.error e

/-- Modelled from the spec, refinement requirement: the Eye body values recomputed
independently from the four propagator inputs, per direction and site, as
the per-site trace of `q3 * gamma5 * q1_sink * adjoint(q2) * gamma5 *
insertion(mu)` (for comparison with the recycled `E_body`). -/
def eyeBodyIndep (A : DiracAlg D N R) (q1Snk : SitePropagator N R)
    (q2 q3 : PropagatorField T S N R) : Fin D → LatticeComplex T S R :=
  fun mu t x =>
    (q3 t x * A.g5 * q1Snk * (q2 t x).conjTranspose * A.g5 * A.gmuL mu).trace

/-- Modelled from the spec, refinement requirement: the Eye loop values recomputed
independently, per direction and site, as the per-site trace of
`q4 * insertion(mu)` (for comparison with the recycled `E_loop`). -/
def eyeLoopIndep (A : DiracAlg D N R) (q4 : PropagatorField T S N R) :
    Fin D → LatticeComplex T S R :=
  fun mu t x => (q4 t x * A.gmuL mu).trace

end Ops

/-- A degenerate Dirac algebra with zero spacetime directions, on 1x1
matrices over the integers (star is the identity): used to exercise the
engine on a D = 0 lattice. -/
def alg0 : DiracAlg 0 1 ℤ :=
  DiracAlg.mk 1 (fun mu => mu.elim0)

/-- A one-direction Dirac algebra on 1x1 integer matrices, used for
concrete executions of the engine. -/
def alg1 : DiracAlg 1 1 ℤ :=
  DiracAlg.mk 1 (fun _ => 1)

/-- Concrete module parameters: quark names q1 to q4, sink time 0,
temporal extent 1. -/
def par0 : WeakHamiltonianPar 1 :=
  WeakHamiltonianPar.mk "q1" "q2" "q3" "q4" 0 "out"

/-- A concrete environment resolving the four quark names of `par0` on a
lattice of temporal extent 1 with a single spatial site, over 1x1 integer
matrices: q1 is a sliced propagator, q2 to q4 are full-volume fields. -/
def env0 : Env 1 (Fin 1) 1 ℤ := fun n =>
  if n = "q1" then some (EnvObject.slicedProp (fun _ => 1))
  else if n = "q2" then some (EnvObject.propField (fun _ _ => 1))
  else if n = "q3" then some (EnvObject.propField (fun _ _ => 1))
  else if n = "q4" then some (EnvObject.propField (fun _ _ => 1))
  else none

/-- The empty environment: no name resolves. -/
def envEmpty : Env 1 (Fin 1) 1 ℤ := fun _ => none

/-- A concrete initial module state over `env0` on the degenerate D = 0
lattice: zeroed scratch buffers and an empty write log. -/
def st0 : ModuleState 1 0 1 (Fin 1) ℤ :=
  ModuleState.mk env0 (fun _ _ => 0) (fun _ _ => 0) (fun _ _ => 0)
    (fun mu => mu.elim0) (fun mu => mu.elim0) (fun mu => mu.elim0)
    (fun mu => mu.elim0) []

/-- The module state produced by running the state-passing execution on
`st0` (extracted from the `Except`). -/
def st0Out : ModuleState 1 0 1 (Fin 1) ℤ :=
  (executeSt alg0 par0 st0).toOption.getD st0

section Thms

variable {T D N : ℕ} {S : Type} [Fintype S] {R : Type} [CommRing R] [StarRing R]

/-- The loop of the `SUM_MU` macro accumulates exactly the finite sum of its
per-direction contributions over all `D` directions. -/
theorem SUM_MU_eq_sum (expr : Fin D → R) : SUM_MU expr = ∑ mu, expr mu := by
  rw [Fin.sum_univ_def, List.sum_eq_foldl, List.foldl_map]
  rfl

/-- C1: for every direction `mu` and every lattice site `(t, x)`, the Saucer
body field equals `q3 * gamma5 * q1Snk * adjoint(q2) * gamma5 *
insertion(mu)`, where `q1Snk` is the single sink-time value `q1[tSnk]`
broadcast to every spatial site, the Saucer loop field equals
`q4 * insertion(mu)`, and the Saucer per-site contraction field is the sum
over all directions of `trace(body_mu * loop_mu)`. -/
theorem saucer_body_loop_trace (A : DiracAlg D N R)
    (q1 : SlicedPropagator T N R) (q2 q3 q4 : PropagatorField T S N R)
    (tSnk : Fin T) (mu : Fin D) (t : Fin T) (x : S) :
    S_body A (q1 tSnk) q2 q3 mu t x
        = q3 t x * A.g5 * q1 tSnk * (q2 t x).conjTranspose * A.g5 * A.gmuL mu
      ∧ S_loop A q4 mu t x = q4 t x * A.gmuL mu
      ∧ expbufS A (q1 tSnk) q2 q3 q4 t x
        = ∑ nu, (S_body A (q1 tSnk) q2 q3 nu t x * S_loop A q4 nu t x).trace := by
  refine ⟨?_, rfl, ?_⟩
  · simp [S_body, MAKE_SE_BODY, mul_assoc]
  · rw [expbufS, SUM_MU_eq_sum]

/-- C2: for every direction and every site, the Eye body and loop fields are
the traces of the already-computed Saucer fields, and they agree with the
Eye body and loop values recomputed independently from the propagator
inputs; the four-propagator product is not recomputed for the Eye diagram. -/
theorem eye_recycles_saucer (A : DiracAlg D N R) (q1Snk : SitePropagator N R)
    (q2 q3 q4 : PropagatorField T S N R) (mu : Fin D) (t : Fin T) (x : S) :
    E_body A q1Snk q2 q3 mu t x = (S_body A q1Snk q2 q3 mu t x).trace
      ∧ E_loop A q4 mu t x = (S_loop A q4 mu t x).trace
      ∧ E_body A q1Snk q2 q3 mu t x = eyeBodyIndep A q1Snk q2 q3 mu t x
      ∧ E_loop A q4 mu t x = eyeLoopIndep A q4 mu t x := by
  refine ⟨rfl, rfl, ?_, rfl⟩
  simp [E_body, S_body, MAKE_SE_BODY, eyeBodyIndep, mul_assoc]

/-- C3: for both diagrams the per-site contraction field is the sum of
exactly `D` directional contributions, one per direction `mu` of the
lattice: the loop ranges over the duplicate-free list of all `D`
directions, whose length is `D`, dropping and duplicating none. -/
theorem directional_sum_exactly_D (A : DiracAlg D N R)
    (q1Snk : SitePropagator N R) (q2 q3 q4 : PropagatorField T S N R)
    (t : Fin T) (x : S) :
    (List.finRange D).length = D ∧ (List.finRange D).Nodup
      ∧ expbufS A q1Snk q2 q3 q4 t x
        = ((List.finRange D).map
            (fun mu => (S_body A q1Snk q2 q3 mu t x
              * S_loop A q4 mu t x).trace)).sum
      ∧ expbufE A q1Snk q2 q3 q4 t x
        = ((List.finRange D).map
            (fun mu => E_body A q1Snk q2 q3 mu t x * E_loop A q4 mu t x)).sum := by
  refine ⟨List.length_finRange D, List.nodup_finRange D, ?_, ?_⟩
  · rw [expbufS, SUM_MU_eq_sum, Fin.sum_univ_def]
  · rw [expbufE, SUM_MU_eq_sum, Fin.sum_univ_def]

/-- C5: the slice projection maps a complex field to a correlator holding,
for each time coordinate `t`, the sum of the field over every spatial
coordinate of the time slice `t` (the zero-momentum projection), producing
exactly one value per time coordinate. -/
theorem projectToCorrelator_zero_momentum (f : LatticeComplex T S R)
    (n : String) :
    (MAKE_DIAG f n).corr = List.ofFn (fun t : Fin T => ∑ x, f t x)
      ∧ (MAKE_DIAG f n).corr.length = T
      ∧ (MAKE_DIAG f n).name = n := by
  refine ⟨rfl, ?_, rfl⟩
  simp [MAKE_DIAG]

/-- C9: replacing q4 by `c • q4` scales every entry of both the Saucer and
the Eye correlators by `c`, and with q2, q3 and q4 all zero both
correlators are identically zero at every time. -/
theorem q4_linearity_and_zero_input (A : DiracAlg D N R)
    (q1Snk : SitePropagator N R) (q2 q3 q4 : PropagatorField T S N R)
    (c : R) :
    (MAKE_DIAG (expbufS A q1Snk q2 q3 (fun t x => c • q4 t x)) "HW_S").corr
        = ((MAKE_DIAG (expbufS A q1Snk q2 q3 q4) "HW_S").corr).map
            (fun z => c * z)
      ∧ (MAKE_DIAG (expbufE A q1Snk q2 q3 (fun t x => c • q4 t x)) "HW_E").corr
        = ((MAKE_DIAG (expbufE A q1Snk q2 q3 q4) "HW_E").corr).map
            (fun z => c * z)
      ∧ (MAKE_DIAG (expbufS A q1Snk
          ((fun _ _ => 0) : PropagatorField T S N R) (fun _ _ => 0)
          (fun _ _ => 0)) "HW_S").corr = List.replicate T (0 : R)
      ∧ (MAKE_DIAG (expbufE A q1Snk
          ((fun _ _ => 0) : PropagatorField T S N R) (fun _ _ => 0)
          (fun _ _ => 0)) "HW_E").corr = List.replicate T (0 : R) := by
  have hcorr : ∀ f g : LatticeComplex T S R, (∀ t x, f t x = c * g t x) →
      List.ofFn (sliceSum f)
        = (List.ofFn (sliceSum g)).map (fun z => c * z) := by
    intro f g hfg
    rw [List.map_ofFn]
    refine congrArg List.ofFn (funext fun t => ?_)
    simp only [Function.comp_apply, sliceSum, Finset.mul_sum]
    exact Finset.sum_congr rfl fun x hx => hfg t x
  have hS : ∀ t x, expbufS A q1Snk q2 q3 (fun t x => c • q4 t x) t x
      = c * expbufS A q1Snk q2 q3 q4 t x := by
    intro t x
    rw [expbufS, expbufS, SUM_MU_eq_sum, SUM_MU_eq_sum, Finset.mul_sum]
    refine Finset.sum_congr rfl fun mu hmu => ?_
    simp [S_loop, MAKE_SE_LOOP, Matrix.smul_mul, Matrix.mul_smul,
      Matrix.trace_smul, smul_eq_mul]
  have hE : ∀ t x, expbufE A q1Snk q2 q3 (fun t x => c • q4 t x) t x
      = c * expbufE A q1Snk q2 q3 q4 t x := by
    intro t x
    rw [expbufE, expbufE, SUM_MU_eq_sum, SUM_MU_eq_sum, Finset.mul_sum]
    refine Finset.sum_congr rfl fun mu hmu => ?_
    simp [E_loop, S_loop, MAKE_SE_LOOP, Matrix.smul_mul, Matrix.trace_smul,
      smul_eq_mul, mul_left_comm]
  have hzS : ∀ t x, expbufS A q1Snk
      ((fun _ _ => 0) : PropagatorField T S N R) (fun _ _ => 0)
      (fun _ _ => 0) t x = (0 : R) := by
    intro t x
    rw [expbufS, SUM_MU_eq_sum]
    simp [S_body, S_loop, MAKE_SE_BODY, MAKE_SE_LOOP]
  have hzE : ∀ t x, expbufE A q1Snk
      ((fun _ _ => 0) : PropagatorField T S N R) (fun _ _ => 0)
      (fun _ _ => 0) t x = (0 : R) := by
    intro t x
    rw [expbufE, SUM_MU_eq_sum]
    simp [E_body, E_loop, S_body, S_loop, MAKE_SE_BODY, MAKE_SE_LOOP]
  have hzero : ∀ (f : LatticeComplex T S R) (n : String),
      (∀ t x, f t x = (0 : R)) →
      (MAKE_DIAG f n).corr = List.replicate T (0 : R) := by
    intro f n hf
    show List.ofFn (sliceSum f) = List.replicate T (0 : R)
    rw [show sliceSum f = fun t => (0 : R) from funext fun t => by
      simp [sliceSum, hf]]
    exact List.ofFn_const T 0
  exact ⟨hcorr _ _ hS, hcorr _ _ hE, hzero _ _ hzS, hzero _ _ hzE⟩

/-- C4: in every successful execution, each emitted Result (the Saucer and
the Eye one) carries a correlator whose length equals the temporal extent
of the lattice. -/
theorem correlator_length_eq_temporal_extent (A : DiracAlg D N R)
    (par : WeakHamiltonianPar T) (env : Env T S N R)
    (out : List (WriteRecord R)) (h : execute A par env = Except.ok out) :
    ∀ w ∈ out, ∀ r ∈ w.results, r.corr.length = T := by
  unfold execute at h
  split at h
  · cases h
    simp [MAKE_DIAG]
  all_goals simp at h

/-- C4 witness: on a concrete lattice of temporal extent 1 the Saucer
result of a successful execution has a correlator of length 1. -/
theorem correlator_length_witness :
    (Result.mk "HW_S" [(1 : ℤ)]).corr.length = 1 :=
  correlator_length_eq_temporal_extent alg1 par0 env0
    [WriteRecord.mk "HW_Eye" [Result.mk "HW_S" [1], Result.mk "HW_E" [1]]]
    (by rfl)
    (WriteRecord.mk "HW_Eye" [Result.mk "HW_S" [1], Result.mk "HW_E" [1]])
    (by simp)
    (Result.mk "HW_S" [1]) (by simp)

/-- C6: every successful execution performs exactly one write, which hands
off exactly two Results, labeled HW_S (Saucer) and then HW_E (Eye), in
that order, under the key HW_Eye. -/
theorem single_write_two_labeled_results (A : DiracAlg D N R)
    (par : WeakHamiltonianPar T) (env : Env T S N R)
    (out : List (WriteRecord R)) (h : execute A par env = Except.ok out) :
    out.length = 1 ∧ ∀ w ∈ out, w.key = "HW_Eye" ∧ w.results.length = 2
      ∧ w.results.map Result.name = ["HW_S", "HW_E"] := by
  unfold execute at h
  split at h
  · cases h
    refine ⟨rfl, ?_⟩
    simp [MAKE_DIAG]
  all_goals simp at h

/-- C6 witness: a concrete successful execution writes once, handing off
the two results labeled HW_S then HW_E. -/
theorem single_write_witness :
    ([WriteRecord.mk "HW_Eye"
        [Result.mk "HW_S" [(1 : ℤ)], Result.mk "HW_E" [1]]]).length = 1
      ∧ ∀ w ∈ [WriteRecord.mk "HW_Eye"
          [Result.mk "HW_S" [(1 : ℤ)], Result.mk "HW_E" [1]]],
        w.key = "HW_Eye" ∧ w.results.length = 2
          ∧ w.results.map Result.name = ["HW_S", "HW_E"] :=
  single_write_two_labeled_results alg1 par0 env0
    [WriteRecord.mk "HW_Eye" [Result.mk "HW_S" [1], Result.mk "HW_E" [1]]]
    (by rfl)

/-- An error returned by resolving a sliced propagator always names the
unresolved input. -/
theorem envGetSliced_error_name (env : Env T S N R) (n : String)
    (e : GridError) (h : envGetSliced env n = Except.error e) :
    e = GridError.UnresolvedInputError n := by
  unfold envGetSliced at h
  split at h <;> simp_all

/-- An error returned by resolving a propagator field always names the
unresolved input. -/
theorem envGetField_error_name (env : Env T S N R) (n : String)
    (e : GridError) (h : envGetField env n = Except.error e) :
    e = GridError.UnresolvedInputError n := by
  unfold envGetField at h
  split at h <;> simp_all

/-- A slice projection of an everywhere-zero field is the all-zero
correlator of length T. -/
theorem MAKE_DIAG_zero (f : LatticeComplex T S R) (n : String)
    (hf : ∀ t x, f t x = (0 : R)) :
    (MAKE_DIAG f n).corr = List.replicate T (0 : R) := by
  show List.ofFn (sliceSum f) = List.replicate T (0 : R)
  rw [show sliceSum f = fun t => (0 : R) from funext fun t => by
    simp [sliceSum, hf]]
  exact List.ofFn_const T 0

/-- Reduction of `execute` when the first input fails to resolve. -/
theorem execute_eq_of_q1_error (A : DiracAlg D N R)
    (par : WeakHamiltonianPar T) (env : Env T S N R) (e : GridError)
    (hq1 : envGetSliced env par.q1 = Except.error e) :
    execute A par env = Except.error e := by
  unfold execute
  rw [hq1]
  cases hq2 : envGetField env par.q2 <;> cases hq3 : envGetField env par.q3 <;>
    cases hq4 : envGetField env par.q4 <;> rfl

/-- Reduction of `execute` when the second input fails to resolve. -/
theorem execute_eq_of_q2_error (A : DiracAlg D N R)
    (par : WeakHamiltonianPar T) (env : Env T S N R)
    (q1 : SlicedPropagator T N R) (e : GridError)
    (hq1 : envGetSliced env par.q1 = Except.ok q1)
    (hq2 : envGetField env par.q2 = Except.error e) :
    execute A par env = Except.error e := by
  unfold execute
  rw [hq1, hq2]
  cases hq3 : envGetField env par.q3 <;> cases hq4 : envGetField env par.q4 <;>
    rfl

/-- Reduction of `execute` when the third input fails to resolve. -/
theorem execute_eq_of_q3_error (A : DiracAlg D N R)
    (par : WeakHamiltonianPar T) (env : Env T S N R)
    (q1 : SlicedPropagator T N R) (q2 : PropagatorField T S N R)
    (e : GridError)
    (hq1 : envGetSliced env par.q1 = Except.ok q1)
    (hq2 : envGetField env par.q2 = Except.ok q2)
    (hq3 : envGetField env par.q3 = Except.error e) :
    execute A par env = Except.error e := by
  unfold execute
  rw [hq1, hq2, hq3]
  cases hq4 : envGetField env par.q4 <;> rfl

/-- Reduction of `execute` when the fourth input fails to resolve. -/
theorem execute_eq_of_q4_error (A : DiracAlg D N R)
    (par : WeakHamiltonianPar T) (env : Env T S N R)
    (q1 : SlicedPropagator T N R) (q2 q3 : PropagatorField T S N R)
    (e : GridError)
    (hq1 : envGetSliced env par.q1 = Except.ok q1)
    (hq2 : envGetField env par.q2 = Except.ok q2)
    (hq3 : envGetField env par.q3 = Except.ok q3)
    (hq4 : envGetField env par.q4 = Except.error e) :
    execute A par env = Except.error e := by
  unfold execute
  rw [hq1, hq2, hq3, hq4]

/-- C7 counterexample: on a concrete degenerate lattice with D = 0
spacetime directions the engine does not fail: it succeeds and returns
all-zero correlators, and in particular its outcome is not the
`ProjectionError` the claim requires. -/
theorem zero_directions_no_projection_error :
    execute alg0 par0 env0
        = Except.ok [WriteRecord.mk "HW_Eye"
            [Result.mk "HW_S" [0], Result.mk "HW_E" [0]]]
      ∧ execute alg0 par0 env0 ≠ Except.error GridError.ProjectionError := by
  have h1 : execute alg0 par0 env0
      = Except.ok [WriteRecord.mk "HW_Eye"
          [Result.mk "HW_S" [0], Result.mk "HW_E" [0]]] := by rfl
  refine ⟨h1, fun hc => ?_⟩
  rw [h1] at hc
  exact Except.noConfusion hc

/-- C7 amended: if the lattice reports D = 0 spacetime directions, the
engine does not fail with `ProjectionError`: every execution whose inputs
resolve completes normally and silently returns, for both diagrams, a
correlator of length T whose entries are all zero. -/
theorem zero_directions_silent_zero (A : DiracAlg 0 N R)
    (par : WeakHamiltonianPar T) (env : Env T S N R)
    (out : List (WriteRecord R)) (h : execute A par env = Except.ok out) :
    ∀ w ∈ out, ∀ r ∈ w.results, r.corr = List.replicate T (0 : R) := by
  unfold execute at h
  split at h
  · cases h
    intro w hw r hr
    simp only [List.mem_singleton] at hw
    subst hw
    simp only [List.mem_cons, List.mem_singleton, List.not_mem_nil,
      or_false] at hr
    rcases hr with hr | hr <;> subst hr <;>
      refine MAKE_DIAG_zero _ _ fun t x => ?_
    · simp [expbufS, SUM_MU, List.finRange_zero]
    · simp [expbufE, SUM_MU, List.finRange_zero]
  all_goals simp at h

/-- C7 amended witness: in the concrete D = 0 execution the Saucer result
is the all-zero correlator of length 1. -/
theorem zero_directions_silent_zero_witness :
    (Result.mk "HW_S" [(0 : ℤ)]).corr = List.replicate 1 (0 : ℤ) :=
  zero_directions_silent_zero alg0 par0 env0
    [WriteRecord.mk "HW_Eye" [Result.mk "HW_S" [0], Result.mk "HW_E" [0]]]
    (by rfl)
    (WriteRecord.mk "HW_Eye" [Result.mk "HW_S" [0], Result.mk "HW_E" [0]])
    (by simp)
    (Result.mk "HW_S" [0]) (by simp)

/-- C8: if any of the four named propagator inputs cannot be resolved by
the environment, the execution fails with an `UnresolvedInputError` and no
record is handed to the writer: there is no partial-success outcome. -/
theorem unresolved_input_aborts (A : DiracAlg D N R)
    (par : WeakHamiltonianPar T) (env : Env T S N R)
    (h : (∃ e, envGetSliced env par.q1 = Except.error e)
       ∨ (∃ e, envGetField env par.q2 = Except.error e)
       ∨ (∃ e, envGetField env par.q3 = Except.error e)
       ∨ (∃ e, envGetField env par.q4 = Except.error e)) :
    (∃ name, execute A par env
        = Except.error (GridError.UnresolvedInputError name))
      ∧ ∀ out, execute A par env ≠ Except.ok out := by
  have hmain : ∃ name, execute A par env
      = Except.error (GridError.UnresolvedInputError name) := by
    cases hq1 : envGetSliced env par.q1 with
    | error e =>
      refine ⟨par.q1, ?_⟩
      rw [execute_eq_of_q1_error A par env e hq1,
        envGetSliced_error_name env par.q1 e hq1]
    | ok q1 =>
      cases hq2 : envGetField env par.q2 with
      | error e =>
        refine ⟨par.q2, ?_⟩
        rw [execute_eq_of_q2_error A par env q1 e hq1 hq2,
          envGetField_error_name env par.q2 e hq2]
      | ok q2 =>
        cases hq3 : envGetField env par.q3 with
        | error e =>
          refine ⟨par.q3, ?_⟩
          rw [execute_eq_of_q3_error A par env q1 q2 e hq1 hq2 hq3,
            envGetField_error_name env par.q3 e hq3]
        | ok q3 =>
          cases hq4 : envGetField env par.q4 with
          | error e =>
            refine ⟨par.q4, ?_⟩
            rw [execute_eq_of_q4_error A par env q1 q2 q3 e hq1 hq2 hq3 hq4,
              envGetField_error_name env par.q4 e hq4]
          | ok q4 =>
            exfalso
            rcases h with ⟨e, he⟩ | ⟨e, he⟩ | ⟨e, he⟩ | ⟨e, he⟩ <;> simp_all
  refine ⟨hmain, ?_⟩
  rcases hmain with ⟨n, hn⟩
  intro out hout
  rw [hn] at hout
  exact Except.noConfusion hout

/-- C8 witness: against the empty environment the execution aborts with an
`UnresolvedInputError` and emits nothing. -/
theorem unresolved_input_witness :
    (∃ name, execute alg1 par0 envEmpty
        = Except.error (GridError.UnresolvedInputError name))
      ∧ ∀ out, execute alg1 par0 envEmpty ≠ Except.ok out :=
  unresolved_input_aborts alg1 par0 envEmpty
    (Or.inl ⟨GridError.UnresolvedInputError "q1", rfl⟩)

/-- C10: a successful execution leaves the whole object environment (and so
all four resolved input propagators) unchanged and leaves the unused
scratch buffers tmp1 and tmp2 untouched; its only output is one record
appended to the write log; and the module declares exactly the four quark
names as inputs and no named environment outputs. -/
theorem execute_frame_and_declared_io (A : DiracAlg D N R)
    (par : WeakHamiltonianPar T) (s s2 : ModuleState T D N S R)
    (h : executeSt A par s = Except.ok s2) :
    (∀ n, s2.env n = s.env n)
      ∧ s2.tmp1 = s.tmp1 ∧ s2.tmp2 = s.tmp2
      ∧ (∃ w, s2.written = s.written ++ [w])
      ∧ getInput par = [par.q1, par.q2, par.q3, par.q4]
      ∧ getOutput par = ([] : List String) := by
  unfold executeSt at h
  split at h
  · cases h
    exact ⟨fun n => rfl, rfl, rfl, ⟨_, rfl⟩, rfl, rfl⟩
  all_goals simp at h

/-- C10 witness: the concrete state-passing execution on `st0` keeps the
environment and the unused buffers intact and appends a single record. -/
theorem execute_frame_witness :
    (∀ n, st0Out.env n = st0.env n)
      ∧ st0Out.tmp1 = st0.tmp1 ∧ st0Out.tmp2 = st0.tmp2
      ∧ (∃ w, st0Out.written = st0.written ++ [w])
      ∧ getInput par0 = [par0.q1, par0.q2, par0.q3, par0.q4]
      ∧ getOutput par0 = ([] : List String) :=
  execute_frame_and_declared_io alg0 par0 st0 st0Out (by rfl)

end Thms

end MContraction
